import Mathlib

/-!
Shallow embedding of `sync.ts` (Linear bulk sync script) from the
linear-claude-skill repository, together with theorems settling the
spec claims about identifier resolution, batch mutation application,
verification, and the CLI exit-code contract.

Remote interaction is modelled by environments that record, for each
GraphQL request the script can issue, what the `graphql` helper did:
`Fetch.reject` models a promise rejection (network/transport error, or an
unparseable body - both paths call `reject` in the source), `Fetch.errors`
models a parsed response carrying a GraphQL `errors` array, and `Fetch.ok`
carries the parsed `data` payload.
-/

namespace LinearSync

/-! ### Character/string helpers mirroring the JS string operations used -/

/-- ASCII letter test, the character class `[A-Z]` with the `i` flag. -/
def isAsciiLetter (c : Char) : Bool :=
  ('A' ≤ c && c ≤ 'Z') || ('a' ≤ c && c ≤ 'z')

/-- ASCII digit test. -/
def isDigitC (c : Char) : Bool :=
  '0' ≤ c && c ≤ '9'

/-- ASCII lower-casing of one character, the behaviour of JS
`toLowerCase()` on the ASCII range used by identifiers and state names. -/
def lowerChar (c : Char) : Char :=
  if 'A' ≤ c && c ≤ 'Z' then Char.ofNat (c.toNat + 32) else c

/-- Model of `s.toLowerCase()` as a character list. -/
def lowerStr (s : String) : List Char :=
  s.data.map lowerChar

/-- Helper for `stripTeamCode`: called just after a letter; skips the rest
of the maximal letter run, and if the run is immediately followed by `-`
returns the characters after the dash (the regex `[A-Z]+-` matched). -/
def runDash : List Char → Option (List Char)
  | [] => none
  | c :: rest =>
    if isAsciiLetter c then runDash rest
    else if c = '-' then some rest
    else none

/-- The `i.replace(regex, empty)` step, where the regex is `[A-Z]+` then a
dash, with the `i` flag: delete the first maximal ASCII-letter run
that is immediately followed by a dash, together with that dash.  (With a
greedy `+` the regex matches at a position exactly when the maximal letter
run starting there ends at a `-`, so scanning letter runs left to right is
the regex's leftmost-match semantics.) -/
def stripTeamCode : List Char → List Char
  | [] => []
  | c :: rest =>
    if isAsciiLetter c then
      match runDash rest with
      | some after => after
      | none => c :: stripTeamCode rest
    else c :: stripTeamCode rest

/-- Leading decimal-digit run as a number, `none` when there is no digit. -/
def leadingNat (cs : List Char) : Option Nat :=
  let ds := cs.takeWhile isDigitC
  if ds.isEmpty then none
  else some (ds.foldl (fun n c => n * 10 + (c.toNat - 48)) 0)

/-- JS `parseInt(s, 10)`: skip leading whitespace, optional sign, then the
leading digit run; `none` models `NaN` (no digits found). -/
def parseIntJS (cs : List Char) : Option Int :=
  let t := cs.dropWhile (fun c => c = ' ' || c = '\t' || c = '\n' || c = '\r')
  match t with
  | '-' :: r => (leadingNat r).map (fun n => -(n : Int))
  | '+' :: r => (leadingNat r).map (fun n => (n : Int))
  | _ => (leadingNat t).map (fun n => (n : Int))

/-- Test that `needle` is a prefix of `hay` (JS `startsWith` on char lists). -/
def startsWithL : List Char → List Char → Bool
  | [], _ => true
  | _ :: _, [] => false
  | a :: as, b :: bs => a == b && startsWithL as bs

/-- Model of `hay.includes(needle)` for char lists: contiguous-substring test. -/
def subListOf (needle : List Char) : List Char → Bool
  | [] => needle.isEmpty
  | b :: bs => startsWithL needle (b :: bs) || subListOf needle bs

/-- Model of `hay.toLowerCase().includes(needle.toLowerCase())`. -/
def containsCI (hay needle : String) : Bool :=
  subListOf (lowerStr needle) (lowerStr hay)

/-! ### Data model -/

/-- One node of the `workflowStates` query response. -/
structure StateNode where
  id : String
  name : String
deriving DecidableEq, Repr

/-- One node of the `issues(filter: ...)` lookup response. -/
structure IssueNode where
  id : String
  identifier : String
  stateName : String
deriving DecidableEq, Repr

/-- One node of the `projects(first: 50)` query response. -/
structure ProjectNode where
  id : String
  name : String
  state : String
deriving DecidableEq, Repr

/-- Outcome of one `graphql(query)` call, from the caller's point of view:
the promise rejected (transport error, or `JSON.parse` failure on the
body), or it resolved to a response whose `errors` array is populated, or
it resolved to a response with usable `data` of payload type `α`. -/
inductive Fetch (α : Type) where
  | reject (msg : String)
  | errors (msg : String)
  | ok (payload : α)
deriving DecidableEq, Repr

/-- The `SyncResult` record of `sync.ts` (the optional `error` field is never set by
`bulkSyncIssues`, which only records `identifier` and `success`). -/
structure SyncResult where
  identifier : String
  success : Bool
deriving DecidableEq, Repr

/-- One record of the verification report. -/
structure VerifyRecord where
  identifier : String
  state : String
  matched : Bool
deriving DecidableEq, Repr

/-- The GraphQL requests `sync.ts` can issue, as recorded in call traces.
`mutIssueUpdate` and `mutProjectUpdate` are the only mutations. -/
inductive Call where
  | queryWorkflowStates
  | queryIssues (numbers : List (Option Int))
  | queryProjects
  | queryProjectDetail (id : String)
  | mutIssueUpdate (id : String) (stateId : String)
  | mutProjectUpdate (id : String) (state : String)
deriving DecidableEq, Repr

/-- Is this call a mutation? -/
def Call.isMutation : Call → Bool
  | .mutIssueUpdate _ _ => true
  | .mutProjectUpdate _ _ => true
  | _ => false

/-! ### Identifier and state resolution -/

/-- The `numbers` array of `getIssueIds` / `verifyIssues`: each identifier
has its team prefix stripped and is fed to `parseInt(_, 10)`.
A `none` entry is a `NaN` that gets serialized into the query. -/
def issueNumbers (identifiers : List String) : List (Option Int) :=
  identifiers.map (fun i => parseIntJS (stripTeamCode i.data))

/-- Model of `getWorkflowStateId`: find the state whose name equals the target name
case-insensitively; throw when the query failed or no state matches. -/
def getWorkflowStateId (name : String) :
    Fetch (List StateNode) → Except String String
  | .reject m => .error m
  | .errors m => .error ("GraphQL error: " ++ m)
  | .ok nodes =>
    match nodes.find? (fun s => lowerStr s.name == lowerStr name) with
    | some s => .ok s.id
    | none => .error ("Workflow state " ++ name ++ " not found")

/-- JS `Map.prototype.set` on an association list: an existing key keeps
its position and gets the new value, a new key is appended. -/
def mapSet (m : List (String × String)) (k v : String) :
    List (String × String) :=
  if k ∈ m.map Prod.fst then
    m.map (fun p => if p.1 = k then (k, v) else p)
  else m ++ [(k, v)]

/-- JS `Map.prototype.get`. -/
def mapGet (m : List (String × String)) (k : String) : Option String :=
  (m.find? (fun p => p.1 == k)).map Prod.snd

/-- The `map.set(i.identifier, i.id)` loop of `getIssueIds`. -/
def buildIssueMap (nodes : List IssueNode) : List (String × String) :=
  nodes.foldl (fun m n => mapSet m n.identifier n.id) []

/-- The `missing` list of `getIssueIds`: input identifiers absent from the
response's identifier set; they are only warned about. -/
def missingIdentifiers (identifiers : List String)
    (nodes : List IssueNode) : List String :=
  identifiers.filter (fun idf => !(nodes.any (fun n => n.identifier == idf)))

/-- Result of `getIssueIds`: the identifier-to-UUID map plus the warned
identifiers. -/
structure IssueLookup where
  issueMap : List (String × String)
  warned : List String
deriving DecidableEq, Repr

/-- Model of `getIssueIds`: issue the lookup query; throw on GraphQL errors; build
the map from the response nodes and warn about missing identifiers. -/
def getIssueIds (identifiers : List String) :
    Fetch (List IssueNode) → Except String IssueLookup
  | .reject m => .error m
  | .errors m => .error ("GraphQL error: " ++ m)
  | .ok nodes => .ok ⟨buildIssueMap nodes, missingIdentifiers identifiers nodes⟩

/-! ### Mutations -/

/-- Outcome of one `issueUpdate`/`projectUpdate` mutation request:
rejection, a response with `errors`, or a parsed response whose
`success` field is `some b` (present) or `none` (path missing, the
`data?.issueUpdate?.success ?? false` chain falls through). -/
inductive UpdateResp where
  | reject (msg : String)
  | errors (msg : String)
  | ok (success : Option Bool)
deriving DecidableEq, Repr

/-- Did the underlying `graphql` promise reject for this response? -/
def UpdateResp.isReject : UpdateResp → Bool
  | .reject _ => true
  | _ => false

/-- The boolean `updateIssue`/`updateProjectStatus` returns when the call
does not throw: `false` on a reported error, else `success ?? false`. -/
def UpdateResp.decodedSuccess : UpdateResp → Bool
  | .reject _ => false
  | .errors _ => false
  | .ok s => s.getD false

/-- Model of `updateIssue` (also `updateProjectStatus`, which has the same error
handling): a rejected promise propagates as a thrown error; a response
with `errors` returns `false`; otherwise `success ?? false`. -/
def updateIssue : UpdateResp → Except String Bool
  | .reject m => .error m
  | .errors _ => .ok false
  | .ok s => .ok (s.getD false)

/-! ### Bulk sync -/

/-- Per-request environment for a bulk sync run: what `graphql` did for
the `workflowStates` query, for the `issues` lookup, and for the
`issueUpdate` mutation of each issue UUID. -/
structure SyncEnv where
  statesResp : Fetch (List StateNode)
  issuesResp : Fetch (List IssueNode)
  updResp : String → UpdateResp

/-- The `for (const [identifier, id] of issueMap)` loop of
`bulkSyncIssues`: one `updateIssue` call per map entry, in map order.  A
thrown error (rejected promise) escapes the loop: the partial `results`
array is abandoned and no further entry is attempted.  The first
component records the mutation requests actually issued. -/
def runBatch (upd : String → UpdateResp) (stateId : String) :
    List (String × String) → List Call × Except String (List SyncResult)
  | [] => ([], .ok [])
  | (idf, id) :: rest =>
    match updateIssue (upd id) with
    | .error m => ([Call.mutIssueUpdate id stateId], .error m)
    | .ok s =>
      let r := runBatch upd stateId rest
      (Call.mutIssueUpdate id stateId :: r.1,
       r.2.map (fun rs => ⟨idf, s⟩ :: rs))

/-- Trace and outcome of one `bulkSyncIssues` invocation. -/
structure BulkRun where
  calls : List Call
  warned : List String
  outcome : Except String (List SyncResult)
deriving Repr

/-- Model of `bulkSyncIssues`: resolve the target state (throwing aborts before
anything else), resolve the identifiers, then run the mutation loop. -/
def bulkSyncIssues (identifiers : List String) (targetState : String)
    (env : SyncEnv) : BulkRun :=
  match getWorkflowStateId targetState env.statesResp with
  | .error m => ⟨[Call.queryWorkflowStates], [], .error m⟩
  | .ok stateId =>
    match getIssueIds identifiers env.issuesResp with
    | .error m =>
      ⟨[Call.queryWorkflowStates, Call.queryIssues (issueNumbers identifiers)],
       [], .error m⟩
    | .ok lk =>
      let r := runBatch env.updResp stateId lk.issueMap
      ⟨Call.queryWorkflowStates :: Call.queryIssues (issueNumbers identifiers)
         :: r.1,
       lk.warned, r.2⟩

/-! ### Verification -/

/-- Model of `verifyIssues`: issue the lookup query (recorded in the trace), throw
on GraphQL errors, else build one record per response node and AND all
the match flags.  The trace shows the pass issues no mutation. -/
def verifyIssues (identifiers : List String) (expectedState : String) :
    Fetch (List IssueNode) →
    List Call × Except String (Bool × List VerifyRecord)
  | .reject m => ([Call.queryIssues (issueNumbers identifiers)], .error m)
  | .errors m =>
    ([Call.queryIssues (issueNumbers identifiers)],
     .error ("GraphQL error: " ++ m))
  | .ok nodes =>
    let results := nodes.map (fun i =>
      VerifyRecord.mk i.identifier i.stateName
        (lowerStr i.stateName == lowerStr expectedState))
    ([Call.queryIssues (issueNumbers identifiers)],
     .ok (results.all (fun r => r.matched), results))

/-! ### Project lookup and update -/

/-- Model of `findProject`: case-insensitive substring scan over the response
nodes, first match wins; `none` payload when nothing matches. -/
def findProject (name : String) :
    Fetch (List ProjectNode) → Except String (Option ProjectNode)
  | .reject m => .error m
  | .errors m => .error ("GraphQL error: " ++ m)
  | .ok nodes => .ok (nodes.find? (fun p => containsCI p.name name))

/-- Model of `updateProjectStatus`, which shares the response handling of `updateIssue`. -/
def updateProjectStatus : UpdateResp → Except String Bool :=
  updateIssue

/-! ### CLI: argument parsing and `main` -/

/-- The object `parseArgs` returns.  `keys` records which properties were
assigned (JS `Object.keys`): a flag given as the last token still creates
its key with value `undefined`, so a field can be `none` while its key is
present. -/
structure Args where
  issues : Option (List String) := none
  state : Option String := none
  project : Option String := none
  projectId : Option String := none
  projectState : Option String := none
  verify : Option (List String) := none
  expectedState : Option String := none
  listProject : Option String := none
  keys : List String := []
deriving DecidableEq, Repr

/-- Add a property key (JS object keys are unique, insertion ordered). -/
def addKey (ks : List String) (k : String) : List String :=
  if k ∈ ks then ks else ks ++ [k]

/-- JS whitespace test for `trim` (the ASCII cases). -/
def isSpaceC (c : Char) : Bool :=
  c = ' ' || c = '\t' || c = '\n' || c = '\r'

/-- JS `s.split(',')` on char lists: the empty string yields one empty
group, a trailing comma yields a trailing empty group. -/
def splitComma : List Char → List (List Char)
  | [] => [[]]
  | c :: rest =>
    if c = ',' then [] :: splitComma rest
    else
      match splitComma rest with
      | g :: gs => (c :: g) :: gs
      | [] => [[c]]

/-- JS `s.trim()` on char lists. -/
def trimChars (cs : List Char) : List Char :=
  ((cs.dropWhile isSpaceC).reverse.dropWhile isSpaceC).reverse

/-- Model of the value splitting `args[++i]?.split(',').map(s => s.trim())`. -/
def splitTrim (s : String) : List String :=
  (splitComma s.data).map (fun g => String.mk (trimChars g))

/-- The argument loop of `parseArgs`: recognized flags consume the next
token as their value; unrecognized tokens (including `--verbose`) are
skipped. -/
def parseArgsGo : List String → Args → Args
  | [], acc => acc
  | a :: rest, acc =>
    if a = "--issues" then
      match rest with
      | v :: rest2 =>
        parseArgsGo rest2
          { acc with issues := some (splitTrim v), keys := addKey acc.keys "issues" }
      | [] => { acc with issues := none, keys := addKey acc.keys "issues" }
    else if a = "--state" then
      match rest with
      | v :: rest2 =>
        parseArgsGo rest2
          { acc with state := some v, keys := addKey acc.keys "state" }
      | [] => { acc with state := none, keys := addKey acc.keys "state" }
    else if a = "--project" then
      match rest with
      | v :: rest2 =>
        parseArgsGo rest2
          { acc with project := some v, keys := addKey acc.keys "project" }
      | [] => { acc with project := none, keys := addKey acc.keys "project" }
    else if a = "--project-id" then
      match rest with
      | v :: rest2 =>
        parseArgsGo rest2
          { acc with projectId := some v, keys := addKey acc.keys "projectId" }
      | [] => { acc with projectId := none, keys := addKey acc.keys "projectId" }
    else if a = "--project-state" then
      match rest with
      | v :: rest2 =>
        parseArgsGo rest2
          { acc with projectState := some v, keys := addKey acc.keys "projectState" }
      | [] => { acc with projectState := none, keys := addKey acc.keys "projectState" }
    else if a = "--verify" then
      match rest with
      | v :: rest2 =>
        parseArgsGo rest2
          { acc with verify := some (splitTrim v), keys := addKey acc.keys "verify" }
      | [] => { acc with verify := none, keys := addKey acc.keys "verify" }
    else if a = "--expected-state" then
      match rest with
      | v :: rest2 =>
        parseArgsGo rest2
          { acc with expectedState := some v, keys := addKey acc.keys "expectedState" }
      | [] => { acc with expectedState := none, keys := addKey acc.keys "expectedState" }
    else if a = "--list-project" then
      match rest with
      | v :: rest2 =>
        parseArgsGo rest2
          { acc with listProject := some v, keys := addKey acc.keys "listProject" }
      | [] => { acc with listProject := none, keys := addKey acc.keys "listProject" }
    else parseArgsGo rest acc

/-- Model of `parseArgs()` over `process.argv.slice(2)`. -/
def parseArgs (argv : List String) : Args :=
  parseArgsGo argv {}

/-- How a `main` block stops early: `process.exit(code)` inside the try
block, or a thrown error that the catch block will turn into exit 1. -/
inductive MainStop where
  | exited (code : Nat)
  | thrown (msg : String)
deriving DecidableEq, Repr

/-- Environment for a whole `main` run, one field per request kind.
`listResp` stands for the `project(id: ...)` detail query of the
`--list-project` branch, whose payload only feeds printing; the source
reads `result.data.project` without checking `errors`, so a response
without usable data throws there. -/
structure MainEnv where
  statesResp : Fetch (List StateNode)
  issuesResp : Fetch (List IssueNode)
  updResp : String → UpdateResp
  projectsResp : Fetch (List ProjectNode)
  projUpdResp : UpdateResp
  verifyResp : Fetch (List IssueNode)
  listResp : Fetch Unit

/-- JS truthiness of an optional string value: `undefined` and the empty
string are falsy, every other string is truthy. -/
def truthyStr : Option String → Bool
  | none => false
  | some s => !(s == "")

/-- JS truthiness of an optional array value: `undefined` is falsy, an
array is always truthy (even when empty). -/
def truthyArr : Option (List String) → Bool
  | none => false
  | some _ => true

/-- The `args.issues && args.state` block of `main` (both operands must
be JS-truthy, so `--state ""` skips the block): run the bulk sync; a
thrown error propagates; otherwise exit code becomes 1 when any result
failed. -/
def syncBlock (args : Args) (env : MainEnv) (code : Nat) :
    Except MainStop Nat :=
  if truthyArr args.issues && truthyStr args.state then
    let run := bulkSyncIssues (args.issues.getD []) (args.state.getD "")
      ⟨env.statesResp, env.issuesResp, env.updResp⟩
    match run.outcome with
    | .error m => .error (.thrown m)
    | .ok results =>
      let failed := (results.filter (fun r => !r.success)).length
      .ok (if failed > 0 then 1 else code)
  else .ok code

/-- The fallback `args.projectState || args.state`: an empty
`--project-state` is falsy and falls through to `--state`. -/
def projectStateArg (args : Args) : Option String :=
  if truthyStr args.projectState then args.projectState else args.state

/-- Shared tail of the project block: apply the project mutation, a
thrown error propagating and a reported failure setting exit code 1. -/
def runProjectUpdate (env : MainEnv) (code : Nat) : Except MainStop Nat :=
  match updateProjectStatus env.projUpdResp with
  | .error m => .error (.thrown m)
  | .ok true => .ok code
  | .ok false => .ok 1

/-- The `args.project || args.projectId` block of `main` (JS truthiness:
an empty name or id is falsy and the block is skipped): a falsy
`projectState || state` exits 1; a truthy name without a truthy id is
looked up (no match exits 1); then the project mutation is applied. -/
def projectBlock (args : Args) (env : MainEnv) (code : Nat) :
    Except MainStop Nat :=
  if truthyStr args.project || truthyStr args.projectId then
    if !(truthyStr (projectStateArg args)) then .error (.exited 1)
    else if !(truthyStr args.projectId) && truthyStr args.project then
      match findProject (args.project.getD "") env.projectsResp with
      | .error m => .error (.thrown m)
      | .ok none => .error (.exited 1)
      | .ok (some _) => runProjectUpdate env code
    else runProjectUpdate env code
  else .ok code

/-- The `args.verify && args.expectedState` block of `main` (both
operands must be JS-truthy, so `--expected-state ""` skips the block). -/
def verifyBlock (args : Args) (env : MainEnv) (code : Nat) :
    Except MainStop Nat :=
  if truthyArr args.verify && truthyStr args.expectedState then
    match (verifyIssues (args.verify.getD []) (args.expectedState.getD "")
        env.verifyResp).2 with
    | .error m => .error (.thrown m)
    | .ok (passed, _) => .ok (if passed then code else 1)
  else .ok code

/-- The `args.listProject` block of `main` (an empty name is falsy and
skips the block): lookup (no match exits 1), then the detail query; its
payload is only printed, but a response without usable data throws when
`result.data.project` is read. -/
def listBlock (args : Args) (env : MainEnv) (code : Nat) :
    Except MainStop Nat :=
  if truthyStr args.listProject then
    match findProject (args.listProject.getD "") env.projectsResp with
    | .error m => .error (.thrown m)
    | .ok none => .error (.exited 1)
    | .ok (some _) =>
      match env.listResp with
      | .reject m => .error (.thrown m)
      | .errors m => .error (.thrown m)
      | .ok _ => .ok code
  else .ok code

/-- Model of `main()`: empty parsed args print usage and exit 0; otherwise the four
blocks run in order inside one try block, accumulating the exit code; an
early `process.exit` wins, and a thrown error is caught and exits 1.
Returns (usage printed?, exit code). -/
def mainRun (argv : List String) (env : MainEnv) : Bool × Nat :=
  let args := parseArgs argv
  if args.keys.isEmpty then (true, 0)
  else
    match (do
        let c1 ← syncBlock args env 0
        let c2 ← projectBlock args env c1
        let c3 ← verifyBlock args env c2
        listBlock args env c3 : Except MainStop Nat) with
    | .ok c => (false, c)
    | .error (.exited c) => (false, c)
    | .error (.thrown _) => (false, 1)

/-! ### Helper lemmas: the mutation loop -/

/-- A non-rejected mutation response makes `updateIssue` return its
decoded success flag instead of throwing. -/
theorem updateIssue_of_not_reject {r : UpdateResp} (h : r.isReject = false) :
    updateIssue r = .ok r.decodedSuccess := by
  cases r <;> simp_all [updateIssue, UpdateResp.isReject, UpdateResp.decodedSuccess]

/-- When no response in the batch is a rejection, the loop issues exactly
one mutation per entry, in order, and collects one result per entry. -/
theorem runBatch_ok (upd : String → UpdateResp) (stateId : String) :
    ∀ entries : List (String × String),
      (∀ p ∈ entries, (upd p.2).isReject = false) →
      runBatch upd stateId entries =
        (entries.map (fun p => Call.mutIssueUpdate p.2 stateId),
         .ok (entries.map (fun p => ⟨p.1, (upd p.2).decodedSuccess⟩)))
  | [], _ => rfl
  | (idf, id) :: rest, h => by
    have h1 : (upd id).isReject = false := h (idf, id) (by simp)
    have h2 : ∀ p ∈ rest, (upd p.2).isReject = false := fun p hp =>
      h p (List.mem_cons_of_mem _ hp)
    simp [runBatch, updateIssue_of_not_reject h1,
      runBatch_ok upd stateId rest h2, Except.map]

/-- A rejected response at some entry halts the loop: the entries before
it and the rejected one are attempted (once each), the outcome is a
thrown error, and nothing after is attempted. -/
theorem runBatch_reject (upd : String → UpdateResp) (stateId : String)
    (qi qd : String) (post : List (String × String)) :
    ∀ pre : List (String × String),
      (∀ p ∈ pre, (upd p.2).isReject = false) →
      (upd qd).isReject = true →
      ∃ m, runBatch upd stateId (pre ++ (qi, qd) :: post) =
        (pre.map (fun p => Call.mutIssueUpdate p.2 stateId) ++
           [Call.mutIssueUpdate qd stateId],
         .error m)
  | [], _, hq => by
    cases hr : upd qd with
    | reject m => exact ⟨m, by simp [runBatch, updateIssue, hr]⟩
    | errors m => rw [hr] at hq; simp [UpdateResp.isReject] at hq
    | ok s => rw [hr] at hq; simp [UpdateResp.isReject] at hq
  | (idf, id) :: pre, h, hq => by
    have h1 : (upd id).isReject = false := h (idf, id) (by simp)
    have h2 : ∀ p ∈ pre, (upd p.2).isReject = false := fun p hp =>
      h p (List.mem_cons_of_mem _ hp)
    obtain ⟨m, hm⟩ := runBatch_reject upd stateId qi qd post pre h2 hq
    exact ⟨m, by simp [runBatch, updateIssue_of_not_reject h1, hm, Except.map]⟩

/-! ### Helper lemmas: `find?` returns the first match -/

/-- The `Array.prototype.find` semantics: a hit satisfies the predicate and
everything before it fails it. -/
theorem find?_first {α : Type} (p : α → Bool) :
    ∀ (l : List α) (a : α), l.find? p = some a →
      p a = true ∧ ∃ l₁ l₂, l = l₁ ++ a :: l₂ ∧ ∀ b ∈ l₁, p b = false
  | [], a, h => by simp [List.find?] at h
  | x :: xs, a, h => by
    cases hp : p x with
    | true =>
      rw [List.find?_cons_of_pos _ hp] at h
      cases h
      exact ⟨hp, [], xs, rfl, by simp⟩
    | false =>
      rw [List.find?_cons_of_neg _ (by simp [hp])] at h
      obtain ⟨ha, l₁, l₂, rfl, hall⟩ := find?_first p xs a h
      refine ⟨ha, x :: l₁, l₂, rfl, ?_⟩
      intro b hb
      rcases List.mem_cons.mp hb with rfl | hb
      · exact hp
      · exact hall b hb

/-! ### Helper lemmas: the issue map -/

/-- Replacing the value at an existing key never changes the key list. -/
theorem map_fst_replace (m : List (String × String)) (k v : String) :
    (m.map (fun p => if p.1 = k then (k, v) else p)).map Prod.fst =
      m.map Prod.fst := by
  induction m with
  | nil => rfl
  | cons p m ih =>
    simp only [List.map_cons, ih, List.cons.injEq, and_true]
    by_cases h : p.1 = k <;> simp [h]

/-- Key list of a `Map.set`: unchanged for an existing key, appended for
a new key. -/
theorem mapSet_fst (m : List (String × String)) (k v : String) :
    (mapSet m k v).map Prod.fst =
      if k ∈ m.map Prod.fst then m.map Prod.fst
      else m.map Prod.fst ++ [k] := by
  unfold mapSet
  by_cases h : k ∈ m.map Prod.fst
  · rw [if_pos h, if_pos h, map_fst_replace]
  · rw [if_neg h, if_neg h]
    simp

/-- The key just set is present. -/
theorem mem_mapSet_self (m : List (String × String)) (k v : String) :
    k ∈ (mapSet m k v).map Prod.fst := by
  rw [mapSet_fst]
  by_cases h : k ∈ m.map Prod.fst <;> simp [h]

/-- Setting a key preserves all existing keys. -/
theorem mem_mapSet_of_mem (m : List (String × String)) (k v x : String)
    (hx : x ∈ m.map Prod.fst) : x ∈ (mapSet m k v).map Prod.fst := by
  rw [mapSet_fst]
  by_cases h : k ∈ m.map Prod.fst <;> simp [h, hx]

/-- Folding response nodes into the map only appends new keys: the
resulting key list is the starting key list plus a duplicate-free
subsequence of the response identifiers, disjoint from the start. -/
theorem buildMap_keys :
    ∀ (ns : List IssueNode) (m : List (String × String)),
      ∃ t : List String,
        (ns.foldl (fun m n => mapSet m n.identifier n.id) m).map Prod.fst =
            m.map Prod.fst ++ t ∧
          t.Sublist (ns.map fun n => n.identifier) ∧
          (∀ x ∈ t, x ∉ m.map Prod.fst) ∧ t.Nodup
  | [], _ => ⟨[], by simp, by simp, by simp, by simp⟩
  | n :: ns, m => by
    obtain ⟨t, h1, h2, h3, h4⟩ := buildMap_keys ns (mapSet m n.identifier n.id)
    by_cases hmem : n.identifier ∈ m.map Prod.fst
    · have hkeys : (mapSet m n.identifier n.id).map Prod.fst = m.map Prod.fst := by
        rw [mapSet_fst, if_pos hmem]
      refine ⟨t, ?_, h2.trans (List.sublist_cons_self _ _), ?_, h4⟩
      · simpa [List.foldl_cons, hkeys] using h1
      · exact fun x hx => hkeys ▸ h3 x hx
    · have hkeys : (mapSet m n.identifier n.id).map Prod.fst =
          m.map Prod.fst ++ [n.identifier] := by
        rw [mapSet_fst, if_neg hmem]
      have hnotint : n.identifier ∉ t := fun hin =>
        h3 n.identifier hin (by rw [hkeys]; simp)
      refine ⟨n.identifier :: t, ?_, List.Sublist.cons₂ _ h2, ?_, ?_⟩
      · rw [List.foldl_cons, h1, hkeys, List.append_assoc]
        rfl
      · intro x hx
        rcases List.mem_cons.mp hx with rfl | hx
        · exact hmem
        · intro hxm
          exact h3 x hx (by rw [hkeys]; exact List.mem_append_left _ hxm)
      · exact List.nodup_cons.mpr ⟨hnotint, h4⟩

/-- Keys already present survive the whole fold. -/
theorem keys_mono (ns : List IssueNode) :
    ∀ (m : List (String × String)) (x : String), x ∈ m.map Prod.fst →
      x ∈ (ns.foldl (fun m n => mapSet m n.identifier n.id) m).map Prod.fst := by
  induction ns with
  | nil => simp
  | cons n ns ih =>
    intro m x hx
    exact ih _ x (mem_mapSet_of_mem _ _ _ _ hx)

/-- Every response node's identifier ends up among the map keys. -/
theorem node_mem_keys (ns : List IssueNode) :
    ∀ (m : List (String × String)) (n : IssueNode), n ∈ ns →
      n.identifier ∈
        (ns.foldl (fun m n => mapSet m n.identifier n.id) m).map Prod.fst := by
  induction ns with
  | nil => simp
  | cons h ns ih =>
    intro m n hn
    rcases List.mem_cons.mp hn with rfl | hn
    · exact keys_mono ns _ _ (mem_mapSet_self _ _ _)
    · exact ih _ n hn

/-- The issue map never holds two entries for the same identifier. -/
theorem buildIssueMap_fst_nodup (ns : List IssueNode) :
    ((buildIssueMap ns).map Prod.fst).Nodup := by
  obtain ⟨t, h1, _, _, h4⟩ := buildMap_keys ns []
  unfold buildIssueMap
  rw [h1]
  simpa using h4

/-- The map keys keep the response order (first occurrences). -/
theorem buildIssueMap_fst_sublist (ns : List IssueNode) :
    ((buildIssueMap ns).map Prod.fst).Sublist (ns.map fun n => n.identifier) := by
  obtain ⟨t, h1, h2, _, _⟩ := buildMap_keys ns []
  unfold buildIssueMap
  rw [h1]
  simpa using h2

/-- With duplicate-free response identifiers the key order is exactly the
response order. -/
theorem buildIssueMap_fst_eq (ns : List IssueNode)
    (h : (ns.map fun n => n.identifier).Nodup) :
    (buildIssueMap ns).map Prod.fst = ns.map fun n => n.identifier := by
  have hsub := buildIssueMap_fst_sublist ns
  have hsup : (ns.map fun n => n.identifier) ⊆ (buildIssueMap ns).map Prod.fst := by
    intro x hx
    obtain ⟨n, hn, rfl⟩ := List.mem_map.mp hx
    exact node_mem_keys ns [] n hn
  have hlen := (List.subperm_of_subset h hsup).length_le
  exact hsub.eq_of_length (Nat.le_antisymm hsub.length_le hlen)

/-- Replacing the value at key `k` makes `find?` for `k` return the new
pair, provided `k` is present. -/
theorem find_replaced (k v : String) :
    ∀ m : List (String × String), k ∈ m.map Prod.fst →
      (m.map (fun p => if p.1 = k then (k, v) else p)).find?
          (fun p => p.1 == k) = some (k, v)
  | [], hmem => by simp at hmem
  | p :: m, hmem => by
    by_cases h : p.1 = k
    · rw [List.map_cons, if_pos h, List.find?_cons_of_pos _ (by simp)]
    · have hmem2 : k ∈ m.map Prod.fst := by
        rw [List.map_cons, List.mem_cons] at hmem
        rcases hmem with h1 | h1
        · exact absurd h1.symm h
        · exact h1
      rw [List.map_cons, if_neg h, List.find?_cons_of_neg _ (by simp [h])]
      exact find_replaced k v m hmem2

/-- Replacing the value at a different key `j` does not affect `find?`
for `k`. -/
theorem find_replaced_ne (j v k : String) (hjk : j ≠ k) :
    ∀ m : List (String × String),
      (m.map (fun p => if p.1 = j then (j, v) else p)).find?
          (fun p => p.1 == k) = m.find? (fun p => p.1 == k)
  | [] => rfl
  | p :: m => by
    by_cases hp : p.1 = j
    · rw [List.map_cons, if_pos hp,
        List.find?_cons_of_neg (m.map _) (by simp [hjk]),
        List.find?_cons_of_neg m (by simp [hp, hjk])]
      exact find_replaced_ne j v k hjk m
    · rw [List.map_cons, if_neg hp]
      by_cases hk : p.1 = k
      · rw [List.find?_cons_of_pos _ (by simp [hk]),
          List.find?_cons_of_pos _ (by simp [hk])]
      · rw [List.find?_cons_of_neg _ (by simp [hk]),
          List.find?_cons_of_neg _ (by simp [hk])]
        exact find_replaced_ne j v k hjk m

/-- Reading a key right after setting it yields the new value. -/
theorem mapGet_mapSet_self (m : List (String × String)) (k v : String) :
    mapGet (mapSet m k v) k = some v := by
  unfold mapGet mapSet
  by_cases h : k ∈ m.map Prod.fst
  · rw [if_pos h, find_replaced k v m h]
    rfl
  · rw [if_neg h, List.find?_append]
    have hnone : m.find? (fun p => p.1 == k) = none := by
      rw [List.find?_eq_none]
      intro p hp hbeq
      exact h (List.mem_map.mpr ⟨p, hp, by simpa using hbeq⟩)
    rw [hnone]
    simp [List.find?]

/-- Reading a key after setting a different key is unchanged. -/
theorem mapGet_mapSet_ne (m : List (String × String)) (j v k : String)
    (hjk : j ≠ k) : mapGet (mapSet m j v) k = mapGet m k := by
  unfold mapGet mapSet
  by_cases h : j ∈ m.map Prod.fst
  · rw [if_pos h, find_replaced_ne j v k hjk m]
  · rw [if_neg h, List.find?_append]
    cases hf : m.find? (fun p => p.1 == k) with
    | some p => simp
    | none =>
      have hb : (j == k) = false := by simp [hjk]
      simp [List.find?, hb]

/-- The stored UUID for an identifier is the `id` of the **last** response
node carrying that identifier: later `Map.set` calls overwrite earlier
ones. -/
theorem mapGet_buildIssueMap (k : String) (ns : List IssueNode) :
    mapGet (buildIssueMap ns) k =
      ((ns.filter fun n => n.identifier == k).getLast?).map fun n => n.id := by
  induction ns using List.reverseRecOn with
  | nil => rfl
  | append_singleton ns n ih =>
    unfold buildIssueMap at *
    rw [List.foldl_append, List.foldl_cons, List.foldl_nil, List.filter_append]
    by_cases h : n.identifier = k
    · rw [h, mapGet_mapSet_self]
      simp [h, List.getLast?_concat]
    · rw [mapGet_mapSet_ne _ _ _ _ h, ih]
      simp [h]

/-! ### Helper lemmas: argument parsing -/

/-- The eight flag tokens `parseArgs` recognizes. -/
def recognizedFlags : List String :=
  ["--issues", "--state", "--project", "--project-id",
   "--project-state", "--verify", "--expected-state", "--list-project"]

/-- An argv without any recognized flag leaves the parsed object empty. -/
theorem parseArgsGo_no_flags :
    ∀ (argv : List String) (acc : Args),
      (∀ t ∈ argv, t ∉ recognizedFlags) → parseArgsGo argv acc = acc
  | [], _, _ => rfl
  | a :: rest, acc, h => by
    have ha := h a (by simp)
    simp only [recognizedFlags, List.mem_cons, List.not_mem_nil] at ha
    push_neg at ha
    obtain ⟨h1, h2, h3, h4, h5, h6, h7, h8, -⟩ := ha
    have hrest : ∀ t ∈ rest, t ∉ recognizedFlags := fun t ht =>
      h t (List.mem_cons_of_mem _ ht)
    rw [parseArgsGo.eq_def]
    simp only [if_neg h1, if_neg h2, if_neg h3, if_neg h4,
      if_neg h5, if_neg h6, if_neg h7, if_neg h8]
    exact parseArgsGo_no_flags rest acc hrest

/-- Parsed shape of `--issues A --state B`. -/
theorem parseArgs_sync (a b : String) :
    parseArgs ["--issues", a, "--state", b] =
      { issues := some (splitTrim a), state := some b,
        keys := ["issues", "state"] } := rfl

/-- Parsed shape of `--verify A --expected-state B`. -/
theorem parseArgs_verify (a b : String) :
    parseArgs ["--verify", a, "--expected-state", b] =
      { verify := some (splitTrim a), expectedState := some b,
        keys := ["verify", "expectedState"] } := rfl

/-- Parsed shape of `--project A --project-state B`. -/
theorem parseArgs_project (a b : String) :
    parseArgs ["--project", a, "--project-state", b] =
      { project := some a, projectState := some b,
        keys := ["project", "projectState"] } := rfl

/-! ### Helper lemmas: exit codes of the three invocation shapes -/

/-- Exit code of a sync-only invocation with a truthy (nonempty) state
value, as a function of the bulk run's outcome. -/
theorem mainRun_sync (a b : String) (env : MainEnv) (hb : b ≠ "") :
    mainRun ["--issues", a, "--state", b] env =
      (false,
        match (bulkSyncIssues (splitTrim a) b
            ⟨env.statesResp, env.issuesResp, env.updResp⟩).outcome with
        | .error _ => 1
        | .ok results =>
          if 0 < (results.filter fun r => !r.success).length then 1 else 0) := by
  unfold mainRun
  rw [parseArgs_sync]
  cases houtcome : (bulkSyncIssues (splitTrim a) b
      ⟨env.statesResp, env.issuesResp, env.updResp⟩).outcome with
  | error m =>
    simp [syncBlock, truthyArr, truthyStr, hb, Option.getD, houtcome,
      Bind.bind, Except.bind]
  | ok results =>
    by_cases hf : 0 < (results.filter fun r => !r.success).length
    · simp [syncBlock, truthyArr, truthyStr, hb, Option.getD, houtcome, hf,
        Bind.bind, Except.bind, projectBlock, verifyBlock, listBlock]
    · simp [syncBlock, truthyArr, truthyStr, hb, Option.getD, houtcome, hf,
        Bind.bind, Except.bind, projectBlock, verifyBlock, listBlock]

/-- An empty `--state` value is falsy, so a sync-only invocation with it
skips the sync block entirely and exits 0. -/
theorem mainRun_sync_empty_state (a : String) (env : MainEnv) :
    mainRun ["--issues", a, "--state", ""] env = (false, 0) := by
  unfold mainRun
  rw [parseArgs_sync]
  simp [syncBlock, truthyArr, truthyStr, Bind.bind, Except.bind,
    projectBlock, verifyBlock, listBlock]

/-- Exit code of a verify-only invocation with a truthy (nonempty)
expected state, as a function of the verification outcome. -/
theorem mainRun_verify (a b : String) (env : MainEnv) (hb : b ≠ "") :
    mainRun ["--verify", a, "--expected-state", b] env =
      (false,
        match (verifyIssues (splitTrim a) b env.verifyResp).2 with
        | .error _ => 1
        | .ok (passed, _) => if passed then 0 else 1) := by
  unfold mainRun
  rw [parseArgs_verify]
  cases hv : (verifyIssues (splitTrim a) b env.verifyResp).2 with
  | error m =>
    simp [syncBlock, verifyBlock, truthyArr, truthyStr, hb, Option.getD, hv,
      Bind.bind, Except.bind, projectBlock, listBlock]
  | ok pr =>
    obtain ⟨passed, rs⟩ := pr
    cases passed <;>
      simp [syncBlock, verifyBlock, truthyArr, truthyStr, hb, Option.getD, hv,
        Bind.bind, Except.bind, projectBlock, listBlock]

/-- An empty `--expected-state` value is falsy, so a verify-only
invocation with it skips the verification block and exits 0. -/
theorem mainRun_verify_empty_expected (a : String) (env : MainEnv) :
    mainRun ["--verify", a, "--expected-state", ""] env = (false, 0) := by
  unfold mainRun
  rw [parseArgs_verify]
  simp [syncBlock, truthyArr, truthyStr, Bind.bind, Except.bind,
    projectBlock, verifyBlock, listBlock]

/-- Exit code of a project-only invocation with truthy (nonempty) name
and state values, as a function of the project lookup and mutation
outcomes. -/
theorem mainRun_project (a b : String) (env : MainEnv) (ha : a ≠ "")
    (hb : b ≠ "") :
    mainRun ["--project", a, "--project-state", b] env =
      (false,
        match findProject a env.projectsResp with
        | .error _ => 1
        | .ok none => 1
        | .ok (some _) =>
          match updateProjectStatus env.projUpdResp with
          | .error _ => 1
          | .ok true => 0
          | .ok false => 1) := by
  unfold mainRun
  rw [parseArgs_project]
  cases hp : findProject a env.projectsResp with
  | error m =>
    simp [syncBlock, projectBlock, projectStateArg, runProjectUpdate,
      truthyArr, truthyStr, ha, hb, Option.getD, hp, Bind.bind, Except.bind,
      verifyBlock, listBlock]
  | ok po =>
    cases po with
    | none =>
      simp [syncBlock, projectBlock, projectStateArg, runProjectUpdate,
        truthyArr, truthyStr, ha, hb, Option.getD, hp, Bind.bind, Except.bind,
        verifyBlock, listBlock]
    | some p =>
      cases hu : updateProjectStatus env.projUpdResp with
      | error m =>
        simp [syncBlock, projectBlock, projectStateArg, runProjectUpdate,
          truthyArr, truthyStr, ha, hb, Option.getD, hp, hu, Bind.bind,
          Except.bind, verifyBlock, listBlock]
      | ok s =>
        cases s <;>
          simp [syncBlock, projectBlock, projectStateArg, runProjectUpdate,
            truthyArr, truthyStr, ha, hb, Option.getD, hp, hu, Bind.bind,
            Except.bind, verifyBlock, listBlock]

/-- An empty `--project` value is falsy (and no `--project-id` is given),
so the project block is skipped and the invocation exits 0 without any
project lookup. -/
theorem mainRun_project_empty_name (b : String) (env : MainEnv) :
    mainRun ["--project", "", "--project-state", b] env = (false, 0) := by
  unfold mainRun
  rw [parseArgs_project]
  simp [syncBlock, truthyArr, truthyStr, Bind.bind, Except.bind,
    projectBlock, verifyBlock, listBlock]

/-! ### Claim theorems -/

/-- Claim C5: workflow-state name resolution matches the target name
against the available state names by exact, full, case-insensitive
equality (never substring containment), and when zero names match it
fails hard: the run aborts before any mutation call is issued, so no
issue is mutated. -/
theorem state_resolution_exact_ci_equality_and_hard_failure
    (name : String) (nodes : List StateNode) :
    (∀ sid, getWorkflowStateId name (.ok nodes) = .ok sid →
      ∃ s ∈ nodes, s.id = sid ∧ lowerStr s.name = lowerStr name) ∧
    ((∀ s ∈ nodes, lowerStr s.name ≠ lowerStr name) →
      ∀ identifiers env, env.statesResp = .ok nodes →
        (∃ m, (bulkSyncIssues identifiers name env).outcome = .error m) ∧
        ∀ c ∈ (bulkSyncIssues identifiers name env).calls,
          c.isMutation = false) := by
  constructor
  · intro sid h
    simp only [getWorkflowStateId] at h
    cases hf : nodes.find? (fun s => lowerStr s.name == lowerStr name) with
    | none => rw [hf] at h; simp at h
    | some s =>
      rw [hf] at h
      have hsid : s.id = sid := by simpa using h
      have hpred := List.find?_some hf
      have hmem := List.mem_of_find?_eq_some hf
      exact ⟨s, hmem, hsid, by simpa using hpred⟩
  · intro hno identifiers env henv
    have hfind : nodes.find? (fun s => lowerStr s.name == lowerStr name) = none := by
      rw [List.find?_eq_none]
      intro s hs
      simp [hno s hs]
    have herr : getWorkflowStateId name (.ok nodes) =
        .error ("Workflow state " ++ name ++ " not found") := by
      simp only [getWorkflowStateId, hfind]
    constructor
    · exact ⟨"Workflow state " ++ name ++ " not found",
        by simp [bulkSyncIssues, henv, herr]⟩
    · intro c hc
      simp [bulkSyncIssues, henv, herr] at hc
      subst hc
      rfl

/-- Claim C6: project-name resolution performs a case-insensitive
substring-containment scan over the available projects and returns the
first project in iteration order whose name contains the query fragment;
when no project name contains the fragment it returns no match (null),
which is a hard failure for that sub-operation. -/
theorem project_resolution_substring_first_match
    (name : String) (nodes : List ProjectNode) :
    (findProject name (.ok nodes) = .ok none ↔
      ∀ p ∈ nodes, containsCI p.name name = false) ∧
    (∀ p, findProject name (.ok nodes) = .ok (some p) →
      containsCI p.name name = true ∧
      ∃ pre post, nodes = pre ++ p :: post ∧
        ∀ q ∈ pre, containsCI q.name name = false) ∧
    (name ≠ "" → ∀ st env code, st ≠ "" → env.projectsResp = .ok nodes →
      (∀ p ∈ nodes, containsCI p.name name = false) →
      projectBlock
        { project := some name, projectState := some st,
          keys := ["project", "projectState"] } env code =
        .error (.exited 1)) := by
  refine ⟨?_, ?_, ?_⟩
  · simp only [findProject]
    constructor
    · intro h p hp
      have hn : nodes.find? (fun p => containsCI p.name name) = none := by
        cases hf : nodes.find? (fun p => containsCI p.name name) with
        | none => rfl
        | some q => rw [hf] at h; simp at h
      have := List.find?_eq_none.mp hn p hp
      simpa using this
    · intro h
      have hn : nodes.find? (fun p => containsCI p.name name) = none := by
        rw [List.find?_eq_none]
        intro p hp
        simp [h p hp]
      rw [hn]
  · intro p h
    simp only [findProject] at h
    cases hf : nodes.find? (fun p => containsCI p.name name) with
    | none => rw [hf] at h; simp at h
    | some q =>
      rw [hf] at h
      have hq : q = p := by simpa using h
      subst hq
      obtain ⟨h1, pre, post, heq, hall⟩ := find?_first _ nodes q hf
      exact ⟨h1, pre, post, heq, hall⟩
  · intro hname st env code hst henv hno
    have hfind : nodes.find? (fun p => containsCI p.name name) = none := by
      rw [List.find?_eq_none]
      intro p hp
      simp [hno p hp]
    simp [projectBlock, projectStateArg, truthyStr, hname, hst, findProject,
      henv, hfind, Option.getD]

/-- Claim C7: the per-item match flag is the case-insensitive equality of
the observed state name with the expected state name, the overall result
is the logical AND of all per-item match flags with no short-circuit (the
full per-item report is produced even when some item mismatches), and the
pass never issues a mutation. -/
theorem verification_ci_equality_full_report_no_mutation
    (ids : List String) (exp : String) (nodes : List IssueNode)
    (passed : Bool) (rs : List VerifyRecord)
    (h : (verifyIssues ids exp (.ok nodes)).2 = .ok (passed, rs)) :
    rs.map (fun r => r.identifier) = nodes.map (fun n => n.identifier) ∧
    (∀ r ∈ rs, r.matched = (lowerStr r.state == lowerStr exp)) ∧
    passed = rs.all (fun r => r.matched) ∧
    (passed = true ↔ ∀ r ∈ rs, r.matched = true) ∧
    (∀ c ∈ (verifyIssues ids exp (.ok nodes)).1, c.isMutation = false) := by
  simp only [verifyIssues] at h
  simp only [Except.ok.injEq, Prod.mk.injEq] at h
  obtain ⟨hp, hr⟩ := h
  subst hr
  refine ⟨by simp, ?_, hp.symm, ?_, ?_⟩
  · intro r hr
    obtain ⟨n, hn, rfl⟩ := List.mem_map.mp hr
    rfl
  · rw [← hp]
    simp [List.all_eq_true]
  · intro c hc
    simp [verifyIssues] at hc
    subst hc
    rfl

/-- Environment exhibiting a state whose name merely contains the target
as a substring: resolution must still fail. -/
def envStateSubstr : SyncEnv :=
  { statesResp := .ok [⟨"s1", "Done and dusted"⟩],
    issuesResp := .ok [],
    updResp := fun _ => .ok (some true) }

/-- Concrete run of the claim-C5 theorem: `"Done and dusted"` contains
`"Done"` but does not equal it, so the run aborts with no mutation. -/
theorem state_resolution_witness :
    (∃ m, (bulkSyncIssues ["SMI-1"] "Done" envStateSubstr).outcome =
      Except.error m) ∧
    (bulkSyncIssues ["SMI-1"] "Done" envStateSubstr).calls.all
        (fun c => !c.isMutation) = true := by
  have h := (state_resolution_exact_ci_equality_and_hard_failure "Done"
      [⟨"s1", "Done and dusted"⟩]).2 (by decide) ["SMI-1"] envStateSubstr rfl
  exact ⟨h.1, by decide⟩

/-- Projects for the claim-C6 witness: two names contain the fragment,
the first in response order wins. -/
def projsSubstr : List ProjectNode :=
  [⟨"p1", "Alpha", "started"⟩, ⟨"p2", "Phase 11 Rollout", "started"⟩,
   ⟨"p3", "Phase 11", "started"⟩]

/-- Concrete run of the claim-C6 theorem: `"phase 11"` matches by
substring, case-insensitively, and the first matching project wins. -/
theorem project_resolution_witness :
    containsCI "Phase 11 Rollout" "phase 11" = true ∧
    ∃ pre post,
      projsSubstr =
        pre ++ (⟨"p2", "Phase 11 Rollout", "started"⟩ : ProjectNode) :: post ∧
      ∀ q ∈ pre, containsCI q.name "phase 11" = false :=
  (project_resolution_substring_first_match "phase 11" projsSubstr).2.1
    ⟨"p2", "Phase 11 Rollout", "started"⟩ rfl

/-- Verification response for the claim-C7 witness: one case-insensitive
match, one mismatch. -/
def verNodes : List IssueNode :=
  [⟨"id1", "SMI-1", "done"⟩, ⟨"id2", "SMI-2", "Todo"⟩]

/-- Concrete run of the claim-C7 theorem: the mismatching item fails the
pass but the full two-item report is still produced. -/
theorem verification_witness :
    (verifyIssues ["SMI-1", "SMI-2"] "Done" (.ok verNodes)).2 =
      .ok (false, [⟨"SMI-1", "done", true⟩, ⟨"SMI-2", "Todo", false⟩]) ∧
    ([⟨"SMI-1", "done", true⟩, ⟨"SMI-2", "Todo", false⟩] :
        List VerifyRecord).map (fun r => r.identifier) =
      verNodes.map (fun n => n.identifier) :=
  ⟨rfl, (verification_ci_equality_full_report_no_mutation
      ["SMI-1", "SMI-2"] "Done" verNodes false
      [⟨"SMI-1", "done", true⟩, ⟨"SMI-2", "Todo", false⟩] rfl).1⟩

/-- Full shape of a bulk sync run in which no mutation response is a
rejection: two queries, then one mutation per map entry in map order,
with one result per entry decoding the remote-reported success. -/
theorem bulkSync_run_eq (identifiers : List String) (targetState : String)
    (env : SyncEnv) (nodes : List IssueNode) (stateId : String)
    (hs : getWorkflowStateId targetState env.statesResp = .ok stateId)
    (hi : env.issuesResp = .ok nodes)
    (hnr : ∀ p ∈ buildIssueMap nodes, (env.updResp p.2).isReject = false) :
    bulkSyncIssues identifiers targetState env =
      ⟨Call.queryWorkflowStates :: Call.queryIssues (issueNumbers identifiers) ::
          ((buildIssueMap nodes).map fun p => Call.mutIssueUpdate p.2 stateId),
        missingIdentifiers identifiers nodes,
        .ok ((buildIssueMap nodes).map fun p =>
          ⟨p.1, (env.updResp p.2).decodedSuccess⟩)⟩ := by
  have hrun := runBatch_ok env.updResp stateId (buildIssueMap nodes) hnr
  simp [bulkSyncIssues, hs, hi, getIssueIds, hrun]

/-- Claim C8: the `SyncResult` list is produced in the same order the
resolved items were iterated, which equals the order in which the remote
lookup response listed them (not necessarily the caller's input order):
the result identifiers are an order-preserving subsequence of the
response identifiers, and exactly the response identifier sequence
whenever the response lists distinct identifiers. -/
theorem bulk_sync_results_in_response_order (identifiers : List String)
    (targetState : String) (env : SyncEnv) (nodes : List IssueNode)
    (stateId : String) (results : List SyncResult)
    (hs : getWorkflowStateId targetState env.statesResp = .ok stateId)
    (hi : env.issuesResp = .ok nodes)
    (hnr : ∀ p ∈ buildIssueMap nodes, (env.updResp p.2).isReject = false)
    (ho : (bulkSyncIssues identifiers targetState env).outcome = .ok results) :
    (results.map fun r => r.identifier).Sublist
        (nodes.map fun n => n.identifier) ∧
    ((nodes.map fun n => n.identifier).Nodup →
      results.map (fun r => r.identifier) = nodes.map fun n => n.identifier) := by
  rw [bulkSync_run_eq identifiers targetState env nodes stateId hs hi hnr] at ho
  have hres : results = (buildIssueMap nodes).map fun p =>
      (⟨p.1, (env.updResp p.2).decodedSuccess⟩ : SyncResult) := by
    simpa using ho.symm
  subst hres
  have hm : (((buildIssueMap nodes).map fun p =>
      (⟨p.1, (env.updResp p.2).decodedSuccess⟩ : SyncResult)).map
        fun r => r.identifier) = (buildIssueMap nodes).map Prod.fst := by
    rw [List.map_map]
    rfl
  rw [hm]
  exact ⟨buildIssueMap_fst_sublist nodes, buildIssueMap_fst_eq nodes⟩

/-- Issue map as seen by the claim-C8 witness: the caller's order is
`A-2, A-1` but the response lists `A-1` first, and the results follow the
response. -/
def envOrder : SyncEnv :=
  { statesResp := .ok [⟨"st1", "Done"⟩],
    issuesResp := .ok [⟨"id1", "A-1", "Todo"⟩, ⟨"id2", "A-2", "Todo"⟩],
    updResp := fun _ => .ok (some true) }

/-- Concrete run of the claim-C8 theorem: results come back in response
order (`A-1, A-2`), not the caller's order (`A-2, A-1`). -/
theorem bulk_sync_order_witness :
    ([⟨"A-1", true⟩, ⟨"A-2", true⟩] : List SyncResult).map
        (fun r => r.identifier) =
      ([⟨"id1", "A-1", "Todo"⟩, ⟨"id2", "A-2", "Todo"⟩] :
        List IssueNode).map (fun n => n.identifier) := by
  have h := bulk_sync_results_in_response_order ["A-2", "A-1"] "Done" envOrder
    [⟨"id1", "A-1", "Todo"⟩, ⟨"id2", "A-2", "Todo"⟩] "st1"
    [⟨"A-1", true⟩, ⟨"A-2", true⟩] rfl rfl (by decide) rfl
  exact h.2 (by decide)

/-- Claim C9: if the verification lookup response contains none of the
requested identifiers (an empty node list), the per-item result list is
empty and the overall verification passes vacuously, so the process
reports verification passed and contributes exit code 0 - no not-found
error is raised for the missing identifiers. -/
theorem empty_verification_passes_vacuously (ids : List String)
    (exp idsArg expArg : String) (env : MainEnv)
    (hv : env.verifyResp = .ok []) :
    (verifyIssues ids exp (.ok [])).2 = .ok (true, []) ∧
    mainRun ["--verify", idsArg, "--expected-state", expArg] env =
      (false, 0) := by
  constructor
  · rfl
  · by_cases hb : expArg = ""
    · subst hb
      exact mainRun_verify_empty_expected idsArg env
    · rw [mainRun_verify idsArg expArg env hb, hv]
      rfl

/-- Environment for the claim-C9 witness: the lookup returns none of the
requested issues. -/
def envVerEmpty : MainEnv :=
  { statesResp := .ok [], issuesResp := .ok [],
    updResp := fun _ => .ok (some true), projectsResp := .ok [],
    projUpdResp := .ok (some true), verifyResp := .ok [],
    listResp := .ok () }

/-- Concrete run of the claim-C9 theorem: empty node list, vacuous pass,
exit code 0. -/
theorem empty_verification_witness :
    (verifyIssues ["SMI-9"] "Done" (.ok [])).2 = .ok (true, []) ∧
    mainRun ["--verify", "SMI-9", "--expected-state", "Done"] envVerEmpty =
      (false, 0) :=
  empty_verification_passes_vacuously ["SMI-9"] "Done" "SMI-9" "Done"
    envVerEmpty rfl

/-- Claim C10: the resolved issues are held in a map keyed by display
identifier, so even if the caller supplies duplicate identifiers or the
lookup response lists the same identifier more than once, each distinct
identifier receives at most one mutation attempt and at most one
`SyncResult` record; later response entries for the same identifier
overwrite earlier ones. -/
theorem issue_map_dedupes_and_last_write_wins (identifiers : List String)
    (targetState : String) (env : SyncEnv) (nodes : List IssueNode)
    (stateId : String) (results : List SyncResult)
    (hs : getWorkflowStateId targetState env.statesResp = .ok stateId)
    (hi : env.issuesResp = .ok nodes)
    (hnr : ∀ p ∈ buildIssueMap nodes, (env.updResp p.2).isReject = false)
    (ho : (bulkSyncIssues identifiers targetState env).outcome = .ok results) :
    ((buildIssueMap nodes).map Prod.fst).Nodup ∧
    (∀ k, mapGet (buildIssueMap nodes) k =
      ((nodes.filter fun n => n.identifier == k).getLast?).map fun n => n.id) ∧
    (results.map fun r => r.identifier).Nodup ∧
    (∀ idf, (results.map fun r => r.identifier).count idf ≤ 1) ∧
    ((bulkSyncIssues identifiers targetState env).calls.filter Call.isMutation =
      (buildIssueMap nodes).map fun p => Call.mutIssueUpdate p.2 stateId) := by
  rw [bulkSync_run_eq identifiers targetState env nodes stateId hs hi hnr] at ho ⊢
  have hres : results = (buildIssueMap nodes).map fun p =>
      (⟨p.1, (env.updResp p.2).decodedSuccess⟩ : SyncResult) := by
    simpa using ho.symm
  subst hres
  have hm : (((buildIssueMap nodes).map fun p =>
      (⟨p.1, (env.updResp p.2).decodedSuccess⟩ : SyncResult)).map
        fun r => r.identifier) = (buildIssueMap nodes).map Prod.fst := by
    rw [List.map_map]
    rfl
  rw [hm]
  refine ⟨buildIssueMap_fst_nodup nodes,
    fun k => mapGet_buildIssueMap k nodes,
    buildIssueMap_fst_nodup nodes,
    fun idf => List.nodup_iff_count_le_one.mp (buildIssueMap_fst_nodup nodes) idf,
    ?_⟩
  simp only [List.filter_cons]
  rw [List.filter_eq_self.mpr]
  · rfl
  · intro c hc
    obtain ⟨p, hp, rfl⟩ := List.mem_map.mp hc
    rfl

/-- Response for the claim-C10 witness: the same identifier appears twice
with different UUIDs; the later entry wins and a single mutation and a
single result are produced for it. -/
def envDup : SyncEnv :=
  { statesResp := .ok [⟨"st1", "Done"⟩],
    issuesResp := .ok
      [⟨"id1", "A-1", "Todo"⟩, ⟨"id2", "A-2", "Todo"⟩, ⟨"id9", "A-1", "Todo"⟩],
    updResp := fun _ => .ok (some true) }

/-- Concrete run of the claim-C10 theorem on a duplicated identifier. -/
theorem issue_map_dedup_witness :
    mapGet (buildIssueMap
      [⟨"id1", "A-1", "Todo"⟩, ⟨"id2", "A-2", "Todo"⟩, ⟨"id9", "A-1", "Todo"⟩])
      "A-1" = some "id9" ∧
    (([⟨"A-1", true⟩, ⟨"A-2", true⟩] : List SyncResult).map
        fun r => r.identifier).Nodup := by
  have h := issue_map_dedupes_and_last_write_wins ["A-1", "A-2"] "Done" envDup
    [⟨"id1", "A-1", "Todo"⟩, ⟨"id2", "A-2", "Todo"⟩, ⟨"id9", "A-1", "Todo"⟩]
    "st1" [⟨"A-1", true⟩, ⟨"A-2", true⟩] rfl rfl (by decide) rfl
  refine ⟨?_, h.2.2.1⟩
  rw [h.2.1 "A-1"]
  rfl

/-- Environment in which the first issue's mutation request suffers a
transport error while the second would succeed. -/
def envReject : SyncEnv :=
  { statesResp := .ok [⟨"st1", "Done"⟩],
    issuesResp := .ok [⟨"id1", "A-1", "Todo"⟩, ⟨"id2", "A-2", "Todo"⟩],
    updResp := fun id =>
      if id = "id1" then .reject "socket hang up" else .ok (some true) }

/-- Claim C1 counterexample: a transport error on the first item is not
captured as a failed `SyncResult` for that item only - the whole batch
aborts with a thrown error, no result list is produced at all, and the
second resolved item is never attempted. -/
theorem transport_error_halts_batch_counterexample :
    (bulkSyncIssues ["A-1", "A-2"] "Done" envReject).outcome =
      .error "socket hang up" ∧
    ((bulkSyncIssues ["A-1", "A-2"] "Done" envReject).calls.contains
      (Call.mutIssueUpdate "id2" "st1")) = false ∧
    ((bulkSyncIssues ["A-1", "A-2"] "Done" envReject).calls.contains
      (Call.mutIssueUpdate "id1" "st1")) = true :=
  ⟨rfl, rfl, rfl⟩

/-- Claim C1 (amended): remote-reported mutation failures (a response
with an `errors` array, or a missing/false `success` field) are captured
as a failed `SyncResult` for that item only and the batch continues, each
resolved item attempted exactly once in map order; but a rejected promise
(transport error or malformed response body) throws, aborting the batch:
earlier results are discarded and later items are never attempted. -/
theorem remote_failures_isolated_transport_errors_halt
    (identifiers : List String) (targetState : String) (env : SyncEnv)
    (nodes : List IssueNode) (stateId : String)
    (hs : getWorkflowStateId targetState env.statesResp = .ok stateId)
    (hi : env.issuesResp = .ok nodes) :
    ((∀ p ∈ buildIssueMap nodes, (env.updResp p.2).isReject = false) →
      (bulkSyncIssues identifiers targetState env).outcome =
        .ok ((buildIssueMap nodes).map fun p =>
          ⟨p.1, (env.updResp p.2).decodedSuccess⟩) ∧
      (bulkSyncIssues identifiers targetState env).calls =
        Call.queryWorkflowStates ::
          Call.queryIssues (issueNumbers identifiers) ::
          ((buildIssueMap nodes).map fun p =>
            Call.mutIssueUpdate p.2 stateId)) ∧
    (∀ pre qi qd post, buildIssueMap nodes = pre ++ (qi, qd) :: post →
      (∀ p ∈ pre, (env.updResp p.2).isReject = false) →
      (env.updResp qd).isReject = true →
      ∃ m, (bulkSyncIssues identifiers targetState env).outcome = .error m ∧
        (bulkSyncIssues identifiers targetState env).calls =
          Call.queryWorkflowStates ::
            Call.queryIssues (issueNumbers identifiers) ::
            (pre.map (fun p => Call.mutIssueUpdate p.2 stateId) ++
              [Call.mutIssueUpdate qd stateId])) := by
  constructor
  · intro hnr
    rw [bulkSync_run_eq identifiers targetState env nodes stateId hs hi hnr]
    exact ⟨rfl, rfl⟩
  · intro pre qi qd post hdecomp hpre hq
    obtain ⟨m, hm⟩ := runBatch_reject env.updResp stateId qi qd post pre hpre hq
    have hbulk : bulkSyncIssues identifiers targetState env =
        ⟨Call.queryWorkflowStates ::
            Call.queryIssues (issueNumbers identifiers) ::
            (pre.map (fun p => Call.mutIssueUpdate p.2 stateId) ++
              [Call.mutIssueUpdate qd stateId]),
          missingIdentifiers identifiers nodes, .error m⟩ := by
      simp [bulkSyncIssues, hs, hi, getIssueIds, hdecomp, hm]
    rw [hbulk]
    exact ⟨m, rfl, rfl⟩

/-- Environment mixing the two remote-reported failure kinds with a
success: an `errors` response, a response with the `success` path
missing, and a true success. -/
def envMixed : SyncEnv :=
  { statesResp := .ok [⟨"st1", "Done"⟩],
    issuesResp := .ok
      [⟨"id1", "A-1", "Todo"⟩, ⟨"id2", "A-2", "Todo"⟩, ⟨"id3", "A-3", "Todo"⟩],
    updResp := fun id =>
      if id = "id1" then .errors "issue is archived"
      else if id = "id2" then .ok none
      else .ok (some true) }

/-- Concrete run of the amended claim-C1 theorem: both remote-reported
failure kinds become failed results for their items only, the third item
still succeeds, and each item is attempted exactly once. -/
theorem remote_failures_isolated_witness :
    (bulkSyncIssues ["A-1", "A-2", "A-3"] "Done" envMixed).outcome =
      .ok [⟨"A-1", false⟩, ⟨"A-2", false⟩, ⟨"A-3", true⟩] ∧
    (bulkSyncIssues ["A-1", "A-2", "A-3"] "Done" envMixed).calls =
      [Call.queryWorkflowStates,
       Call.queryIssues [some 1, some 2, some 3],
       Call.mutIssueUpdate "id1" "st1",
       Call.mutIssueUpdate "id2" "st1",
       Call.mutIssueUpdate "id3" "st1"] :=
  (remote_failures_isolated_transport_errors_halt ["A-1", "A-2", "A-3"]
    "Done" envMixed
    [⟨"id1", "A-1", "Todo"⟩, ⟨"id2", "A-2", "Todo"⟩, ⟨"id3", "A-3", "Todo"⟩]
    "st1" rfl rfl).1 (by decide)

/-- Environment for the claim-C2 theorems. -/
def envNaN : SyncEnv :=
  { statesResp := .ok [⟨"st1", "Done"⟩],
    issuesResp := .ok [⟨"id432", "SMI-432", "Todo"⟩],
    updResp := fun _ => .ok (some true) }

/-- Claim C2 counterexample: the non-numeric token `"abc"` is not dropped
from the batch - the numbers array keeps a `NaN` entry for it, and the
resolution query is issued with both entries rather than only the numeric
one. -/
theorem non_numeric_tokens_not_dropped_counterexample :
    issueNumbers ["SMI-432", "abc"] = [some 432, none] ∧
    ((bulkSyncIssues ["SMI-432", "abc"] "Done" envNaN).calls.contains
      (Call.queryIssues [some 432, none])) = true ∧
    ((bulkSyncIssues ["SMI-432", "abc"] "Done" envNaN).calls.contains
      (Call.queryIssues [some 432])) = false :=
  ⟨rfl, rfl, rfl⟩

/-- Claim C2 (amended): non-numeric tokens are kept, not dropped: the
numbers array has exactly one entry per caller-supplied token, with `NaN`
(`none`) for tokens whose stripped suffix has no digits, and the
resolution query is issued with that full array.  No local error aborts
the run before the query. -/
theorem non_numeric_tokens_kept_as_nan (identifiers : List String)
    (targetState : String) (env : SyncEnv) (stateId : String)
    (hs : getWorkflowStateId targetState env.statesResp = .ok stateId) :
    (issueNumbers identifiers).length = identifiers.length ∧
    Call.queryIssues (issueNumbers identifiers) ∈
      (bulkSyncIssues identifiers targetState env).calls := by
  constructor
  · simp [issueNumbers]
  · cases hio : env.issuesResp with
    | reject m => simp [bulkSyncIssues, hs, hio, getIssueIds]
    | errors m => simp [bulkSyncIssues, hs, hio, getIssueIds]
    | ok nodes => simp [bulkSyncIssues, hs, hio, getIssueIds]

/-- Concrete run of the amended claim-C2 theorem: two tokens, one
non-numeric, still two query entries. -/
theorem non_numeric_tokens_kept_witness :
    (issueNumbers ["abc", "SMI-432"]).length =
      (["abc", "SMI-432"] : List String).length ∧
    Call.queryIssues (issueNumbers ["abc", "SMI-432"]) ∈
      (bulkSyncIssues ["abc", "SMI-432"] "Done" envNaN).calls :=
  non_numeric_tokens_kept_as_nan ["abc", "SMI-432"] "Done" envNaN "st1" rfl

/-- Environment in which the issue-set lookup finds nothing. -/
def envNoIssues : MainEnv :=
  { statesResp := .ok [⟨"st1", "Done"⟩], issuesResp := .ok [],
    updResp := fun _ => .ok (some true), projectsResp := .ok [],
    projUpdResp := .ok (some true), verifyResp := .ok [],
    listResp := .ok () }

/-- Claim C3 counterexample: when the issue-set lookup finds nothing the
sync produces zero results (only a warning naming the identifier) and the
process exits 0, not 1. -/
theorem empty_issue_lookup_exits_zero_counterexample :
    (bulkSyncIssues ["SMI-1"] "Done"
        ⟨envNoIssues.statesResp, envNoIssues.issuesResp,
         envNoIssues.updResp⟩).warned = ["SMI-1"] ∧
    mainRun ["--issues", "SMI-1", "--state", "Done"] envNoIssues =
      (false, 0) :=
  ⟨rfl, rfl⟩

/-- Claim C3 (amended): the exit code is 0 when every requested operation
fully succeeds and 1 when any issue mutation fails, any verification
mismatch occurs, or a target-state or project lookup finds nothing; an
issue-set lookup that resolves none of the identifiers, however, only
warns and contributes exit code 0.  No recognized flags prints the usage
text and exits 0.  Flag values are subject to JS truthiness: an empty
string supplied for `--state`, `--expected-state` or `--project` is falsy,
so the corresponding block is skipped and contributes exit code 0. -/
theorem exit_code_contract :
    (∀ argv env, (∀ t ∈ argv, t ∉ recognizedFlags) →
      mainRun argv env = (true, 0)) ∧
    (∀ env idsArg stArg results, stArg ≠ "" →
      (bulkSyncIssues (splitTrim idsArg) stArg
          ⟨env.statesResp, env.issuesResp, env.updResp⟩).outcome =
        .ok results →
      (∃ r ∈ results, r.success = false) →
      mainRun ["--issues", idsArg, "--state", stArg] env = (false, 1)) ∧
    (∀ env idsArg stArg results, stArg ≠ "" →
      (bulkSyncIssues (splitTrim idsArg) stArg
          ⟨env.statesResp, env.issuesResp, env.updResp⟩).outcome =
        .ok results →
      (∀ r ∈ results, r.success = true) →
      mainRun ["--issues", idsArg, "--state", stArg] env = (false, 0)) ∧
    (∀ env idsArg stArg snodes, stArg ≠ "" → env.statesResp = .ok snodes →
      (∀ s ∈ snodes, lowerStr s.name ≠ lowerStr stArg) →
      mainRun ["--issues", idsArg, "--state", stArg] env = (false, 1)) ∧
    (∀ env nameArg stArg pnodes, nameArg ≠ "" → stArg ≠ "" →
      env.projectsResp = .ok pnodes →
      (∀ p ∈ pnodes, containsCI p.name nameArg = false) →
      mainRun ["--project", nameArg, "--project-state", stArg] env =
        (false, 1)) ∧
    (∀ env idsArg expArg rs, expArg ≠ "" →
      (verifyIssues (splitTrim idsArg) expArg env.verifyResp).2 =
        .ok (false, rs) →
      mainRun ["--verify", idsArg, "--expected-state", expArg] env =
        (false, 1)) ∧
    (∀ env idsArg expArg rs, expArg ≠ "" →
      (verifyIssues (splitTrim idsArg) expArg env.verifyResp).2 =
        .ok (true, rs) →
      mainRun ["--verify", idsArg, "--expected-state", expArg] env =
        (false, 0)) ∧
    (∀ env idsArg stArg stateId, stArg ≠ "" →
      getWorkflowStateId stArg env.statesResp = .ok stateId →
      env.issuesResp = .ok [] →
      mainRun ["--issues", idsArg, "--state", stArg] env = (false, 0)) ∧
    (∀ env idsArg,
      mainRun ["--issues", idsArg, "--state", ""] env = (false, 0)) ∧
    (∀ env stArg,
      mainRun ["--project", "", "--project-state", stArg] env =
        (false, 0)) := by
  refine ⟨?_, ?_, ?_, ?_, ?_, ?_, ?_, ?_, ?_, ?_⟩
  · intro argv env hnone
    have hp : parseArgs argv = {} := parseArgsGo_no_flags argv {} hnone
    unfold mainRun
    rw [hp]
    rfl
  · intro env idsArg stArg results hst ho ⟨r, hr, hfail⟩
    rw [mainRun_sync idsArg stArg env hst, ho]
    have hmem : r ∈ results.filter (fun r => !r.success) :=
      List.mem_filter.mpr ⟨hr, by simp [hfail]⟩
    have hpos : 0 < (results.filter fun r => !r.success).length :=
      List.length_pos.mpr (List.ne_nil_of_mem hmem)
    simp [hpos]
  · intro env idsArg stArg results hst ho hall
    rw [mainRun_sync idsArg stArg env hst, ho]
    have hnil : results.filter (fun r => !r.success) = [] := by
      rw [List.filter_eq_nil_iff]
      intro r hr
      simp [hall r hr]
    simp [hnil]
  · intro env idsArg stArg snodes hst henv hno
    have hfind : snodes.find? (fun s => lowerStr s.name == lowerStr stArg) =
        none := by
      rw [List.find?_eq_none]
      intro s hs
      simp [hno s hs]
    have herr : getWorkflowStateId stArg env.statesResp =
        .error ("Workflow state " ++ stArg ++ " not found") := by
      rw [henv]
      simp only [getWorkflowStateId, hfind]
    rw [mainRun_sync idsArg stArg env hst]
    have hout : (bulkSyncIssues (splitTrim idsArg) stArg
        ⟨env.statesResp, env.issuesResp, env.updResp⟩).outcome =
        .error ("Workflow state " ++ stArg ++ " not found") := by
      simp [bulkSyncIssues, herr]
    rw [hout]
  · intro env nameArg stArg pnodes hname hst henv hno
    have hfind : pnodes.find? (fun p => containsCI p.name nameArg) = none := by
      rw [List.find?_eq_none]
      intro p hp
      simp [hno p hp]
    rw [mainRun_project nameArg stArg env hname hst]
    have hfp : findProject nameArg env.projectsResp = .ok none := by
      rw [henv]
      simp only [findProject, hfind]
    rw [hfp]
  · intro env idsArg expArg rs hexp hv
    rw [mainRun_verify idsArg expArg env hexp, hv]
    rfl
  · intro env idsArg expArg rs hexp hv
    rw [mainRun_verify idsArg expArg env hexp, hv]
    rfl
  · intro env idsArg stArg stateId hst hs hempty
    rw [mainRun_sync idsArg stArg env hst]
    have hout := (bulkSync_run_eq (splitTrim idsArg) stArg
        ⟨env.statesResp, env.issuesResp, env.updResp⟩ [] stateId hs hempty
        (by simp [buildIssueMap]))
    rw [hout]
    rfl
  · intro env idsArg
    exact mainRun_sync_empty_state idsArg env
  · intro env stArg
    exact mainRun_project_empty_name stArg env

/-- Environment for the failing branches of the claim-C3 witness: the
only state is `Done`, the only project is `Alpha`, the mutation reports
failure, and the verification response is a mismatch. -/
def envExitFail : MainEnv :=
  { statesResp := .ok [⟨"st1", "Done"⟩],
    issuesResp := .ok [⟨"id1", "A-1", "Todo"⟩],
    updResp := fun _ => .ok (some false),
    projectsResp := .ok [⟨"p1", "Alpha", "started"⟩],
    projUpdResp := .ok (some true),
    verifyResp := .ok [⟨"idv", "SMI-1", "Todo"⟩],
    listResp := .ok () }

/-- Environment for the succeeding branches of the claim-C3 witness. -/
def envExitOk : MainEnv :=
  { statesResp := .ok [⟨"st1", "Done"⟩],
    issuesResp := .ok [⟨"id1", "A-1", "Todo"⟩],
    updResp := fun _ => .ok (some true),
    projectsResp := .ok [⟨"p1", "Alpha", "started"⟩],
    projUpdResp := .ok (some true),
    verifyResp := .ok [⟨"idv", "SMI-1", "Done"⟩],
    listResp := .ok () }

/-- Concrete runs of the amended claim-C3 theorem, one per branch,
including the falsy empty-string flag values that skip their block. -/
theorem exit_code_contract_witness :
    mainRun ["--verbose"] envExitOk = (true, 0) ∧
    mainRun ["--issues", "A-1", "--state", "Done"] envExitFail = (false, 1) ∧
    mainRun ["--issues", "A-1", "--state", "Done"] envExitOk = (false, 0) ∧
    mainRun ["--issues", "A-1", "--state", "Nope"] envExitFail = (false, 1) ∧
    mainRun ["--project", "Beta", "--project-state", "done"] envExitFail =
      (false, 1) ∧
    mainRun ["--verify", "SMI-1", "--expected-state", "Done"] envExitFail =
      (false, 1) ∧
    mainRun ["--verify", "SMI-1", "--expected-state", "Done"] envExitOk =
      (false, 0) ∧
    mainRun ["--issues", "A-9", "--state", "Done"] envNoIssues = (false, 0) ∧
    mainRun ["--issues", "A-1", "--state", ""] envExitFail = (false, 0) ∧
    mainRun ["--project", "", "--project-state", "done"] envExitFail =
      (false, 0) := by
  obtain ⟨h1, h2, h3, h4, h5, h6, h7, h8, h9, h10⟩ := exit_code_contract
  refine ⟨h1 ["--verbose"] envExitOk (by decide),
    h2 envExitFail "A-1" "Done" [⟨"A-1", false⟩] (by decide) rfl
      ⟨⟨"A-1", false⟩, by decide, rfl⟩,
    h3 envExitOk "A-1" "Done" [⟨"A-1", true⟩] (by decide) rfl (by decide),
    h4 envExitFail "A-1" "Nope" [⟨"st1", "Done"⟩] (by decide) rfl (by decide),
    h5 envExitFail "Beta" "done" [⟨"p1", "Alpha", "started"⟩] (by decide)
      (by decide) rfl (by decide),
    h6 envExitFail "SMI-1" "Done" [⟨"SMI-1", "Todo", false⟩] (by decide) rfl,
    h7 envExitOk "SMI-1" "Done" [⟨"SMI-1", "Done", true⟩] (by decide) rfl,
    h8 envNoIssues "A-9" "Done" "st1" (by decide) rfl rfl,
    h9 envExitFail "A-1",
    h10 envExitFail "done"⟩

/-- Environment whose lookup response carries an identifier from outside
the requested set (the number filter matches issues of another team). -/
def envOutside : SyncEnv :=
  { statesResp := .ok [⟨"st1", "Done"⟩],
    issuesResp := .ok [⟨"id1", "SMI-1", "Todo"⟩, ⟨"id2", "ABC-1", "Todo"⟩],
    updResp := fun _ => .ok (some true) }

/-- Claim C4 counterexample: a single requested identifier, but the
lookup response lists two (the number-based filter matched an issue of
another team), so the bulk sync produces two `SyncResult` records - more
than the input identifier count. -/
theorem sync_results_exceed_input_counterexample :
    (bulkSyncIssues ["SMI-1"] "Done" envOutside).outcome =
      .ok [⟨"SMI-1", true⟩, ⟨"ABC-1", true⟩] ∧
    ([⟨"SMI-1", true⟩, ⟨"ABC-1", true⟩] : List SyncResult).length = 2 ∧
    (["SMI-1"] : List String).length = 1 :=
  ⟨rfl, rfl, rfl⟩

/-- Claim C4 (amended): the `SyncResult` count equals the number of
distinct identifiers in the lookup response, so it is at most the input
identifier count whenever every response identifier occurs in the input
(it can exceed it when the number-based filter matches issues outside the
requested set).  Identifiers absent from the response are only warned
about, produce no result record, and do not block the identifiers that
were found, each of which gets a result. -/
theorem sync_result_count_bounded_when_response_within_input
    (identifiers : List String) (targetState : String) (env : SyncEnv)
    (nodes : List IssueNode) (stateId : String) (results : List SyncResult)
    (hs : getWorkflowStateId targetState env.statesResp = .ok stateId)
    (hi : env.issuesResp = .ok nodes)
    (hnr : ∀ p ∈ buildIssueMap nodes, (env.updResp p.2).isReject = false)
    (ho : (bulkSyncIssues identifiers targetState env).outcome = .ok results)
    (hin : ∀ n ∈ nodes, n.identifier ∈ identifiers) :
    results.length ≤ identifiers.length ∧
    ((bulkSyncIssues identifiers targetState env).warned =
      identifiers.filter
        (fun idf => !(nodes.any (fun n => n.identifier == idf)))) ∧
    (∀ idf ∈ (bulkSyncIssues identifiers targetState env).warned,
      ∀ r ∈ results, r.identifier ≠ idf) ∧
    (∀ n ∈ nodes, ∃ r ∈ results, r.identifier = n.identifier) := by
  rw [bulkSync_run_eq identifiers targetState env nodes stateId hs hi hnr]
    at ho ⊢
  have hres : results = (buildIssueMap nodes).map fun p =>
      (⟨p.1, (env.updResp p.2).decodedSuccess⟩ : SyncResult) := by
    simpa using ho.symm
  subst hres
  have hm : (((buildIssueMap nodes).map fun p =>
      (⟨p.1, (env.updResp p.2).decodedSuccess⟩ : SyncResult)).map
        fun r => r.identifier) = (buildIssueMap nodes).map Prod.fst := by
    rw [List.map_map]
    rfl
  have hkeysub : ((buildIssueMap nodes).map Prod.fst) ⊆
      nodes.map fun n => n.identifier :=
    (buildIssueMap_fst_sublist nodes).subset
  have hkeyin : ((buildIssueMap nodes).map Prod.fst) ⊆ identifiers := by
    intro x hx
    obtain ⟨n, hn, rfl⟩ := List.mem_map.mp (hkeysub hx)
    exact hin n hn
  refine ⟨?_, rfl, ?_, ?_⟩
  · have hlen := (List.subperm_of_subset (buildIssueMap_fst_nodup nodes)
      hkeyin).length_le
    calc ((buildIssueMap nodes).map fun p =>
          (⟨p.1, (env.updResp p.2).decodedSuccess⟩ : SyncResult)).length
        = ((buildIssueMap nodes).map Prod.fst).length := by
          simp [List.length_map]
      _ ≤ identifiers.length := hlen
  · intro idf hwarn r hr
    simp only [missingIdentifiers, List.mem_filter] at hwarn
    obtain ⟨-, hnone⟩ := hwarn
    obtain ⟨p, hp, rfl⟩ := List.mem_map.mp hr
    have hpin : p.1 ∈ nodes.map fun n => n.identifier :=
      hkeysub (List.mem_map.mpr ⟨p, hp, rfl⟩)
    obtain ⟨n, hn, hid⟩ := List.mem_map.mp hpin
    intro heq
    have heq2 : p.1 = idf := heq
    have : nodes.any (fun n => n.identifier == idf) = true :=
      List.any_eq_true.mpr ⟨n, hn, by simp [hid, heq2]⟩
    simp [this] at hnone
  · intro n hn
    have hk : n.identifier ∈ (buildIssueMap nodes).map Prod.fst :=
      node_mem_keys nodes [] n hn
    rw [← hm] at hk
    obtain ⟨r, hr, hid⟩ := List.mem_map.mp hk
    exact ⟨r, hr, hid⟩

/-- Response for the claim-C4 witness: one of the two requested
identifiers resolves; the other is warned about and gets no record. -/
def envPartial : SyncEnv :=
  { statesResp := .ok [⟨"st1", "Done"⟩],
    issuesResp := .ok [⟨"id1", "SMI-1", "Todo"⟩],
    updResp := fun _ => .ok (some true) }

/-- Concrete run of the amended claim-C4 theorem. -/
theorem sync_result_count_bounded_witness :
    ([⟨"SMI-1", true⟩] : List SyncResult).length ≤
      (["SMI-1", "SMI-2"] : List String).length ∧
    ((bulkSyncIssues ["SMI-1", "SMI-2"] "Done" envPartial).warned =
      (["SMI-1", "SMI-2"] : List String).filter
        (fun idf => !((([⟨"id1", "SMI-1", "Todo"⟩] : List IssueNode)).any
          (fun n => n.identifier == idf)))) := by
  have h := sync_result_count_bounded_when_response_within_input
    ["SMI-1", "SMI-2"] "Done" envPartial [⟨"id1", "SMI-1", "Todo"⟩] "st1"
    [⟨"SMI-1", true⟩] rfl rfl (by decide) rfl (by decide)
  exact ⟨h.1, h.2.1⟩

end LinearSync
